/-
Verification of the MOEX trading-volume anomaly detector (src/detector.py)
against its natural-language specification.

The Python source is shallowly embedded: Python dicts become association
lists in insertion order (the model of a dict invariantly has no duplicate
keys; `dictSet` is Python's `d[k] = v`, updating in place or appending),
Python numbers become `ℚ` except where the code takes a real square root
(`statistics.stdev`), which is modelled with `Real.sqrt`, and code that
raises becomes `Option`/`Except`-valued.
-/
import Mathlib

/-- Anomaly threshold in standard deviations (`ANOMALY_THRESHOLD_SIGMA = 3.0`,
detector.py line 30). -/
def ANOMALY_THRESHOLD_SIGMA : ℝ := 3

/-- Minimum deviation percent for the report (`MIN_DEVIATION_PERCENT = 300`,
detector.py line 33). -/
def MIN_DEVIATION_PERCENT : ℚ := 300

/-- Minimum average daily value (`MIN_AVG_VALUE = 10_000_000`, detector.py
line 36). -/
def MIN_AVG_VALUE : ℚ := 10000000

/-- Ticker prefixes excluded from analysis (`EXCLUDED_TICKER_PREFIXES =
("RU000",)`, detector.py line 39). -/
def EXCLUDED_TICKER_PREFIXES : List String := ["RU000"]

/-- Shortname keywords excluded from analysis (`EXCLUDED_SHORTNAME_KEYWORDS =
("ETF",)`, detector.py line 42). -/
def EXCLUDED_SHORTNAME_KEYWORDS : List String := ["ETF"]

/-- `MAX_RETRIES = 5`, detector.py line 46. -/
def MAX_RETRIES : ℕ := 5

/-- One raw row of the MOEX history endpoint:
`[SECID, SHORTNAME, VOLUME, VALUE, NUMTRADES]` (detector.py line 109).
The numeric fields may be `null` in the feed, hence `Option`. -/
structure RawRow where
  secid : String
  shortname : String
  volume : Option ℚ
  value : Option ℚ
  numtrades : Option ℚ
deriving DecidableEq, Repr

/-- The per-ticker aggregated record
`{shortname, volume, value, numtrades}` (detector.py lines 176-181). -/
structure TickerRecord where
  shortname : String
  volume : ℚ
  value : ℚ
  numtrades : ℚ
deriving DecidableEq, Repr

/-- A Python dict keyed by strings, modelled as an association list in
insertion order. -/
abbrev Dict (α : Type) : Type := List (String × α)

/-- Python `d[k]` / `k in d`: the value stored at key `k`, if any. -/
def dictFind {α : Type} (d : Dict α) (k : String) : Option α :=
  match d with
  | [] => none
  | (k', v) :: rest => if k' = k then some v else dictFind rest k

/-- Python `d[k] = v`: replace the value in place when the key is present,
otherwise append the new key at the end (dict insertion order). -/
def dictSet {α : Type} (d : Dict α) (k : String) (v : α) : Dict α :=
  match d with
  | [] => [(k, v)]
  | (k', v') :: rest => if k' = k then (k, v) :: rest else (k', v') :: dictSet rest k v

/-- The keys of a dict, in insertion order. -/
def dictKeys {α : Type} (d : Dict α) : List String :=
  d.map Prod.fst

/-- `secid.startswith(EXCLUDED_TICKER_PREFIXES)` (detector.py line 167,
also line 240): the identifier starts with one of the excluded prefixes. -/
def excludedTicker (t : String) : Bool :=
  EXCLUDED_TICKER_PREFIXES.any (fun p => p.data.isPrefixOf t.data)

/-- `any(keyword in shortname.upper() for keyword in
EXCLUDED_SHORTNAME_KEYWORDS)` (detector.py line 245): case-insensitive
substring match. `str.upper()` is modelled per character with
`Char.toUpper`, which agrees with Python on ASCII and therefore on
containment of the ASCII keyword "ETF". -/
def excludedShortname (s : String) : Bool :=
  EXCLUDED_SHORTNAME_KEYWORDS.any (fun kw => decide (kw.data <:+: s.data.map Char.toUpper))

/-- The zero record the aggregation loop creates when a key is first seen
(detector.py lines 175-181): the first row fixes the shortname. -/
def initRec (row : RawRow) : TickerRecord :=
  { shortname := row.shortname, volume := 0, value := 0, numtrades := 0 }

/-- One accumulation into an existing record (detector.py lines 183-185),
with `x or 0` turning `null` fields into 0 (lines 171-173). -/
def addRow (r : TickerRecord) (row : RawRow) : TickerRecord :=
  { shortname := r.shortname
    volume := r.volume + row.volume.getD 0
    value := r.value + row.value.getD 0
    numtrades := r.numtrades + row.numtrades.getD 0 }

/-- One iteration of the aggregation loop (detector.py lines 163-185):
skip excluded prefixes, create the zero record with the first row's
shortname when the key is new, then accumulate volume, value and trade
count into the record at that key. -/
def aggregateStep (agg : Dict TickerRecord) (row : RawRow) : Dict TickerRecord :=
  if excludedTicker row.secid then agg
  else dictSet agg row.secid (addRow ((dictFind agg row.secid).getD (initRec row)) row)

/-- `aggregate_ticker_data` (detector.py lines 151-187). -/
def aggregate_ticker_data (raw_data : List RawRow) : Dict TickerRecord :=
  raw_data.foldl aggregateStep []

/-- `statistics.mean` (detector.py line 259): arithmetic mean; only applied
to nonempty lists by the caller. -/
def pyMean (l : List ℚ) : ℚ := l.sum / l.length

/-- The sample variance underlying `statistics.stdev`:
`Σ (x - mean)² / (n - 1)`; only applied to lists of length ≥ 2. -/
def sampleVariance (l : List ℚ) : ℚ :=
  (l.map (fun x => (x - pyMean l) ^ 2)).sum / ((l.length : ℚ) - 1)

/-- `statistics.stdev` (detector.py line 262): square root of the sample
variance. Python computes it in floating point; the model is exact. -/
noncomputable def pyStdev (l : List ℚ) : ℝ := Real.sqrt ((sampleVariance l : ℚ) : ℝ)

/-- The warning string of detector.py line 266:
`f"Тикер {ticker}: только {len(values)} день(ей) данных вместо 5"`.
Note the window length `5` is a literal in the source. -/
def warnMsg (ticker : String) (n : ℕ) : String :=
  "Тикер " ++ ticker ++ ": только " ++ toString n ++ " день(ей) данных вместо 5"

/-- Baseline values of one ticker (detector.py lines 249-252): the `value`
field from each baseline day where the ticker is present, in window order. -/
def baselineValues (base_data : List (Dict TickerRecord)) (ticker : String) : List ℚ :=
  base_data.filterMap (fun day => (dictFind day ticker).map (fun r => r.value))

/-- Per-ticker statistics record (detector.py lines 283-291). `std_value`
and `z_score` are real because `statistics.stdev` takes a square root;
all other numbers stay rational. -/
structure TickerStats where
  shortname : String
  current_value : ℚ
  mean_value : ℚ
  std_value : ℝ
  z_score : ℝ
  deviation_pct : ℚ
  base_days_count : ℕ

/-- The statistics computed for one surviving ticker with nonempty baseline
`values` (detector.py lines 258-291): sample stdev when ≥ 2 values,
otherwise the synthetic spread `mean * 0.01` (or `1` when the mean is not
positive); z-score guarded by `std > 0`; deviation guarded by `mean > 0`. -/
noncomputable def mkStat (values : List ℚ) (shortname : String) (current_value : ℚ) :
    TickerStats :=
  let mean_value := pyMean values
  let std_value : ℝ :=
    if 2 ≤ values.length then pyStdev values
    else (((if 0 < mean_value then mean_value * (1 / 100) else 1) : ℚ) : ℝ)
  let z_score : ℝ :=
    if 0 < std_value then ((current_value : ℝ) - (mean_value : ℝ)) / std_value else 0
  let deviation_pct : ℚ :=
    if 0 < mean_value then (current_value - mean_value) / mean_value * 100 else 0
  { shortname := shortname, current_value := current_value, mean_value := mean_value
    std_value := std_value, z_score := z_score, deviation_pct := deviation_pct
    base_days_count := values.length }

/-- `calculate_statistics` (detector.py lines 224-293). Iterates the target
snapshot in order; skips excluded prefixes, excluded shortnames, and
tickers with no baseline values; emits a warning exactly when fewer than
2 baseline values are available (the `len(values) >= 2` test of line 261,
whose else-branch both sets the synthetic spread and warns). Returns the
statistics entries and the warnings, both in target order. -/
noncomputable def calculate_statistics (base_data : List (Dict TickerRecord)) :
    Dict TickerRecord → Dict TickerStats × List String
  | [] => ([], [])
  | (ticker, target_info) :: rest =>
    let r := calculate_statistics base_data rest
    if excludedTicker ticker then r
    else if excludedShortname target_info.shortname then r
    else
      let values := baselineValues base_data ticker
      if values.isEmpty then r
      else
        ((ticker, mkStat values target_info.shortname target_info.value) :: r.1,
          if 2 ≤ values.length then r.2 else warnMsg ticker values.length :: r.2)

/-- The three-fold anomaly test of detector.py lines 308-313:
`z_score > threshold and deviation_pct > MIN_DEVIATION_PERCENT and
mean_value >= MIN_AVG_VALUE`. -/
noncomputable def anomalyTest (threshold : ℝ) (p : String × TickerStats) : Bool :=
  decide (threshold < p.2.z_score) && decide ( MIN_DEVIATION_PERCENT < p.2.deviation_pct)
    && decide ( MIN_AVG_VALUE ≤ p.2.mean_value)

/-- The ordering of `anomalies.sort(key=lambda x: x[1]['z_score'],
reverse=True)` (detector.py line 316): descending z-score. -/
def zDescRel (a b : String × TickerStats) : Prop := b.2.z_score ≤ a.2.z_score

noncomputable instance : DecidableRel zDescRel := fun a b => by
  unfold zDescRel; infer_instance

/-- `find_anomalies` (detector.py lines 296-318): filter by the three
thresholds, then sort by z-score descending. Python's `list.sort` is
stable; `List.insertionSort` with `zDescRel` keeps tied elements in input
order, matching it. -/
noncomputable def find_anomalies (stats : Dict TickerStats) (threshold : ℝ) :
    List (String × TickerStats) :=
  List.insertionSort zDescRel (stats.filter (fun p => anomalyTest threshold p))

/-- The pagination loop of one fetch attempt (detector.py lines 117-136):
starting at offset 0 the loop requests the page at `start`, breaks when it
is empty (`if not rows: break`), otherwise concatenates it, advances
`start` by 100 and sleeps only when exactly 100 rows came back. `pages`
maps an offset to the rows the API returns for it; the loop is fuelled
because the Python `while True` need not terminate. The result carries the
concatenated rows, the list of requested offsets, and the sleep count. -/
def pageLoop (pages : ℕ → List RawRow) :
    ℕ → ℕ → List RawRow → List ℕ → ℕ → Option (List RawRow × List ℕ × ℕ)
  | 0, _, _, _, _ => none
  | fuel + 1, start, acc, offsets, sleeps =>
    let rows := pages start
    if rows.isEmpty then some (acc, offsets ++ [start], sleeps)
    else
      pageLoop pages fuel (start + 100) (acc ++ rows) (offsets ++ [start])
        (sleeps + if rows.length = 100 then 1 else 0)

/-- The retry loop of `fetch_volumes_from_api` (detector.py lines 114,
141-148): each element of `attempts` is the outcome of one whole
multi-page attempt (`.ok rows` or a transport error); the first success
is aggregated and returned, a failure before the last attempt moves on to
the next attempt, and the failure of the last attempt is raised. -/
def fetch_volumes_from_api : List (Except String (List RawRow)) →
    Except String (Dict TickerRecord)
  | [] => Except.error "no attempts"
  | [r] =>
    match r with
    | Except.ok rows => Except.ok (aggregate_ticker_data rows)
    | Except.error e => Except.error e
  | r :: rest =>
    match r with
    | Except.ok rows => Except.ok (aggregate_ticker_data rows)
    | Except.error _ => fetch_volumes_from_api rest

/-- One cached snapshot file `{'date': date, 'tickers': data}`
(detector.py lines 214-217). -/
structure CacheEntry where
  date : String
  tickers : Dict TickerRecord
deriving DecidableEq

/-- `load_or_fetch_data` (detector.py lines 190-221) over an explicit
cache state. `fetchResult` is the outcome `fetch_volumes_from_api(date)`
would have. Returns the produced tickers (or the propagated error), the
cache after the call, and how many network fetches were performed. -/
def load_or_fetch_data (fetchResult : Except String (Dict TickerRecord))
    (cache : Dict CacheEntry) (date : String) (force : Bool) :
    Except String (Dict TickerRecord) × Dict CacheEntry × ℕ :=
  if force = false then
    match dictFind cache date with
    | some entry => (Except.ok entry.tickers, cache, 0)
    | none =>
      match fetchResult with
      | Except.error e => (Except.error e, cache, 1)
      | Except.ok d => (Except.ok d, dictSet cache date ⟨date, d⟩, 1)
  else
    match fetchResult with
    | Except.error e => (Except.error e, cache, 1)
    | Except.ok d => (Except.ok d, dictSet cache date ⟨date, d⟩, 1)

/-- Python `/`, which raises `ZeroDivisionError` on a zero divisor
(relevant at detector.py line 363). -/
def pyDiv (a b : ℚ) : Option ℚ := if b = 0 then none else some (a / b)

/-- Round a rational to `d` decimal digits, modelling Python's `round`
and the fixed-point format specifiers on exact values. -/
def roundQ (d : ℕ) (q : ℚ) : ℚ := (round (q * 10 ^ d) : ℤ) / 10 ^ d

/-- Round a real to 2 decimal digits, modelling `round(x, 2)` on the
float z-score (detector.py line 400). -/
noncomputable def roundR2 (x : ℝ) : ℝ := ((round (x * 100) : ℤ) : ℝ) / 100

/-- `format_number` (detector.py lines 321-328); the thousand-separator
and fixed-decimal rendering of Python format strings is abbreviated to
`toString` of the exact quotient. -/
def format_number (num : ℚ) : String :=
  if 1000000000 ≤ num then toString (roundQ 1 (num / 1000000000)) ++ " млрд"
  else if 1000000 ≤ num then toString (roundQ 1 (num / 1000000)) ++ " млн"
  else toString (roundQ 0 num)

/-- The per-anomaly block of the text report (detector.py lines 347-355);
`f"{z:+.2f}"` on the float z-score is abbreviated to the exact value
rounded to 2 digits. -/
noncomputable def anomalyLines (rank : ℕ) (p : String × TickerStats) : List String :=
  ["[" ++ toString rank ++ "] " ++ p.1 ++ " - " ++ p.2.shortname,
   "    Оборот: " ++ format_number p.2.current_value ++ " руб",
   "    Средний: " ++ format_number p.2.mean_value ++ " руб",
   "    Z-score: " ++ toString ((round (p.2.z_score * 100) : ℤ)) ++ "/100",
   "    Отклонение: " ++ toString (roundQ 1 p.2.deviation_pct) ++ "%"]
  ++ (if p.2.base_days_count < 5 then
      ["    ⚠️  Данных за базовый период: " ++ toString p.2.base_days_count ++ " дней"]
    else [])
  ++ [""]

/-- `generate_txt_report` (detector.py lines 331-376). The returned value
is the list of report lines; `none` models the exceptions the function can
raise: the `IndexError` of `base_period[0]`/`base_period[-1]` at line 338
when the base period is empty, and the `ZeroDivisionError` that line 363
(`len(anomalies)/total_tickers*100`) raises when `total_tickers` is zero,
in that order. -/
noncomputable def generate_txt_report (anomalies : List (String × TickerStats))
    (target_date : String) (base_period : List String) (total_tickers : ℕ)
    (warnings : List String) : Option (List String) := do
  let sep := String.mk (List.replicate 70 '=')
  let first ← base_period.head?
  let last ← base_period.getLast?
  let head := [sep, "АНОМАЛИИ ОБЪЕМОВ ТОРГОВ", "Дата анализа: " ++ target_date,
    "Базовый период: " ++ first ++ " - " ++ last
      ++ " (" ++ toString base_period.length ++ " дней)",
    "Порог аномалии: 3.0σ", sep, ""]
  let body :=
    if anomalies.isEmpty then ["Аномалий не обнаружено", ""]
    else ("Обнаружено аномалий: " ++ toString anomalies.length) :: "" ::
      (anomalies.enum.map (fun p => anomalyLines (p.1 + 1) p.2)).flatten
  let ratio ← pyDiv (anomalies.length : ℚ) (total_tickers : ℚ)
  let statsBlock := [sep, "Статистика:",
    "- Всего тикеров: " ++ toString total_tickers,
    "- Аномалий найдено: " ++ toString anomalies.length ++ " ("
      ++ toString (roundQ 1 (ratio * 100)) ++ "%)",
    "- Использовано дней для базы: " ++ toString base_period.length]
  let warnBlock :=
    if warnings.isEmpty then []
    else "" :: "Предупреждения:" :: (warnings.take 10).map (fun w => "- " ++ w)
      ++ (if 10 < warnings.length then
          ["... и еще " ++ toString (warnings.length - 10) ++ " предупреждений"]
        else [])
  return head ++ body ++ statsBlock ++ warnBlock ++ [sep]

/-- The metadata object of the JSON report (detector.py lines 383-391). -/
structure ReportMeta where
  analysis_date : String
  base_period_start : String
  base_period_end : String
  base_period_days : ℕ
  threshold_sigma : ℝ
  total_tickers : ℕ
  anomalies_found : ℕ

/-- One element of the `anomalies` array of the JSON report
(detector.py lines 393-403). -/
structure AnomalyJson where
  rank : ℕ
  ticker : String
  shortname : String
  current_value : ℚ
  avg_value : ℚ
  std_value : ℝ
  z_score : ℝ
  deviation_percent : ℚ
  base_days_count : ℕ

/-- The JSON report object (detector.py lines 382-407). -/
structure JsonReport where
  metadata : ReportMeta
  anomalies : List AnomalyJson
  warnings : List String

/-- `generate_json_report` (detector.py lines 379-407): pure assembly of
the structured report; ranks are 1-based positions after the sort already
performed by `find_anomalies`. `round(z, 2)` on the float z-score is
modelled exactly. `none` models the `IndexError` that `base_period[0]` /
`base_period[-1]` at lines 385-386 raise on an empty base period. -/
noncomputable def generate_json_report (anomalies : List (String × TickerStats))
    (target_date : String) (base_period : List String) (total_tickers : ℕ)
    (warnings : List String) : Option JsonReport := do
  let first ← base_period.head?
  let last ← base_period.getLast?
  return {
    metadata :=
    { analysis_date := target_date
      base_period_start := first
      base_period_end := last
      base_period_days := base_period.length
      threshold_sigma := ANOMALY_THRESHOLD_SIGMA
      total_tickers := total_tickers
      anomalies_found := anomalies.length }
    anomalies := anomalies.enum.map (fun p =>
      { rank := p.1 + 1
        ticker := p.2.1
        shortname := p.2.2.shortname
        current_value := p.2.2.current_value
        avg_value := p.2.2.mean_value
        std_value := p.2.2.std_value
        z_score := roundR2 p.2.2.z_score
        deviation_percent := roundQ 1 p.2.2.deviation_pct
        base_days_count := p.2.2.base_days_count })
    warnings := warnings }

/-- The rows of the raw feed that carry a given identifier, in feed order. -/
def rowsFor (raw : List RawRow) (s : String) : List RawRow :=
  raw.filter (fun row => row.secid == s)

/-- Accumulate a row sequence for one identifier on top of an optional
existing record. -/
def accRows (o : Option TickerRecord) : List RawRow → Option TickerRecord
  | [] => o
  | row :: rest => accRows (some (addRow (o.getD (initRec row)) row)) rest

/-- Concatenation of `k` successive pages starting at page index `j`
(offsets `100*j, 100*(j+1), …`). -/
def pagesConcat (pages : ℕ → List RawRow) : ℕ → ℕ → List RawRow
  | _, 0 => []
  | j, k + 1 => pages (100 * j) ++ pagesConcat pages (j + 1) k

/-- The offsets of `k` successive page requests starting at page index `j`. -/
def offsetsList : ℕ → ℕ → List ℕ
  | _, 0 => []
  | j, k + 1 => 100 * j :: offsetsList (j + 1) k

/-- How many of `k` successive pages starting at page index `j` are full
(exactly 100 rows). -/
def fullCount (pages : ℕ → List RawRow) : ℕ → ℕ → ℕ
  | _, 0 => 0
  | j, k + 1 => (if (pages (100 * j)).length = 100 then 1 else 0) + fullCount pages (j + 1) k

/-- Concrete one-day baseline snapshot list for the C1 witness. -/
def c1Base : List (Dict TickerRecord) := [[("GAZP", ⟨"Газпром", 5, 100, 3⟩)]]

/-- Concrete target snapshot for the C1 witness. -/
def c1Target : Dict TickerRecord := [("GAZP", ⟨"Газпром", 7, 500, 4⟩)]

/-- Concrete raw feed for the C2 witness: two sessions of SBER around an
excluded bond row, one with a null volume. -/
def c2Raw : List RawRow :=
  [⟨"SBER", "Сбербанк", some 10, some 100, some 5⟩,
   ⟨"RU000A0JX", "Бонд", some 1, some 1, some 1⟩,
   ⟨"SBER", "Сбер2", none, some 50, some 2⟩]

/-- Five identical baseline days with value 100 for the C4 scenario. -/
def c4Base : List (Dict TickerRecord) :=
  List.replicate 5 [("TST", ⟨"Тест", 1, 100, 1⟩)]

/-- Target snapshot with value 500 for the C4 scenario. -/
def c4Target : Dict TickerRecord := [("TST", ⟨"Тест", 5, 500, 5⟩)]

/-- Two anomalous entries with the same z-score for the C5 counterexample. -/
def c5A : TickerStats :=
  { shortname := "А", current_value := 100000000, mean_value := 20000000
    std_value := 1, z_score := 5, deviation_pct := 400, base_days_count := 5 }

/-- Same statistics as `c5A` under a different identifier. -/
def c5B : TickerStats :=
  { shortname := "Б", current_value := 100000000, mean_value := 20000000
    std_value := 1, z_score := 5, deviation_pct := 400, base_days_count := 5 }

/-- Statistics mapping holding the two tied entries, for C5. -/
def c5Stats : Dict TickerStats := [("AAA", c5A), ("BBB", c5B)]

/-- Pages for the C6 counterexample: the first page holds a single row
(fewer than the page size) and every later page is empty. -/
def c6Pages : ℕ → List RawRow :=
  fun n => if n = 0 then [⟨"SBER", "Сбербанк", some 1, some 1, some 1⟩] else []

/-- Concrete prepopulated cache for the C7 witness. -/
def c7Cache : Dict CacheEntry :=
  [("2026-01-30", ⟨"2026-01-30", [("SBER", ⟨"Сбербанк", 10, 150, 7⟩)]⟩)]

/-- A three-day baseline window in which LKOH has data on one day only,
for the C10 counterexample. -/
def c10Base : List (Dict TickerRecord) :=
  [[("LKOH", ⟨"Лукойл", 1, 200, 1⟩)], [], []]

/-- Concrete target snapshot for the C10 counterexample. -/
def c10Target : Dict TickerRecord := [("LKOH", ⟨"Лукойл", 2, 900, 2⟩)]

/-- Lookup after writing the same key. -/
theorem dictFind_dictSet_self {α : Type} (d : Dict α) (k : String) (v : α) :
    dictFind (dictSet d k v) k = some v := by
  induction d with
  | nil => simp [dictSet, dictFind]
  | cons hd tl ih =>
    by_cases h : hd.1 = k
    · simp [dictSet, h, dictFind]
    · simpa [dictSet, h, dictFind] using ih

/-- Lookup after writing a different key. -/
theorem dictFind_dictSet_ne {α : Type} (d : Dict α) (k k' : String) (v : α)
    (h : k ≠ k') : dictFind (dictSet d k v) k' = dictFind d k' := by
  induction d with
  | nil => simp [dictSet, dictFind, h]
  | cons hd tl ih =>
    by_cases h1 : hd.1 = k
    · simp [dictSet, h1, dictFind, h]
    · by_cases h2 : hd.1 = k'
      · simp [dictSet, h1, dictFind, h2, Ne.symm h]
      · simp [dictSet, h1, dictFind, h2, ih]

/-- Writing preserves the key list when the key is present and appends it
otherwise. -/
theorem dictKeys_dictSet {α : Type} (d : Dict α) (k : String) (v : α) :
    dictKeys (dictSet d k v) =
      if (dictFind d k).isSome then dictKeys d else dictKeys d ++ [k] := by
  induction d with
  | nil => simp [dictSet, dictFind, dictKeys]
  | cons hd tl ih =>
    by_cases h : hd.1 = k
    · simp [dictSet, h, dictFind, dictKeys]
    · cases hfind : (dictFind tl k).isSome
      · simp only [hfind, Bool.false_eq_true, if_false, dictKeys] at ih
        simp [dictSet, h, dictFind, dictKeys, hfind, ih]
      · simp only [hfind, if_true, dictKeys] at ih
        simp [dictSet, h, dictFind, dictKeys, hfind, ih]

/-- A key is present exactly when the lookup succeeds. -/
theorem dictFind_isSome_iff_mem {α : Type} (d : Dict α) (k : String) :
    (dictFind d k).isSome = true ↔ k ∈ dictKeys d := by
  induction d with
  | nil => simp [dictFind, dictKeys]
  | cons hd tl ih =>
    by_cases h : hd.1 = k
    · simp [dictFind, h, dictKeys]
    · simpa [dictFind, h, dictKeys, Ne.symm h] using ih

/-- Writing preserves distinctness of keys. -/
theorem dictKeys_nodup_dictSet {α : Type} (d : Dict α) (k : String) (v : α)
    (h : (dictKeys d).Nodup) : (dictKeys (dictSet d k v)).Nodup := by
  rw [dictKeys_dictSet]
  by_cases hk : (dictFind d k).isSome
  · simpa [hk] using h
  · have : k ∉ dictKeys d := fun hmem => hk ((dictFind_isSome_iff_mem d k).mpr hmem)
    simp [hk, List.nodup_append, h, this]

/-- Membership in the keys after a write. -/
theorem mem_dictKeys_dictSet {α : Type} (d : Dict α) (k k' : String) (v : α)
    (h : k' ∈ dictKeys (dictSet d k v)) : k' ∈ dictKeys d ∨ k' = k := by
  rw [dictKeys_dictSet] at h
  by_cases hk : (dictFind d k).isSome
  · simp [hk] at h; exact Or.inl h
  · simp [hk] at h; exact h

/-- A step on an excluded row does nothing. -/
theorem aggregateStep_excluded (agg : Dict TickerRecord) (row : RawRow)
    (h : excludedTicker row.secid = true) : aggregateStep agg row = agg := by
  simp [aggregateStep, h]

/-- A step on a surviving row writes the accumulated record at its key. -/
theorem aggregateStep_ok (agg : Dict TickerRecord) (row : RawRow)
    (h : excludedTicker row.secid = false) :
    aggregateStep agg row =
      dictSet agg row.secid (addRow ((dictFind agg row.secid).getD (initRec row)) row) := by
  simp [aggregateStep, h]

/-- What one ticker's entry looks like after the whole aggregation fold. -/
theorem dictFind_foldl_aggregateStep (raw : List RawRow) :
    ∀ (agg : Dict TickerRecord) (s : String), excludedTicker s = false →
      dictFind (raw.foldl aggregateStep agg) s = accRows (dictFind agg s) (rowsFor raw s) := by
  induction raw with
  | nil => intro agg s _; simp [rowsFor, accRows]
  | cons row rest ih =>
    intro agg s hs
    by_cases hx : excludedTicker row.secid = true
    · have hne : (row.secid == s) = false := by
        cases hb : row.secid == s
        · rfl
        · rw [eq_of_beq hb, hs] at hx; cases hx
      rw [List.foldl_cons, aggregateStep_excluded agg row hx, ih agg s hs]
      simp [rowsFor, List.filter_cons, hne]
    · have hx' : excludedTicker row.secid = false := by
        cases hb : excludedTicker row.secid
        · rfl
        · exact absurd hb hx
      rw [List.foldl_cons, aggregateStep_ok agg row hx']
      by_cases he : row.secid = s
      · subst he
        rw [ih _ _ hs, dictFind_dictSet_self]
        simp [rowsFor, List.filter_cons, accRows]
      · have hne : (row.secid == s) = false := by
          cases hb : row.secid == s
          · rfl
          · exact absurd (eq_of_beq hb) he
        rw [ih _ _ hs, dictFind_dictSet_ne _ _ _ _ he]
        simp [rowsFor, List.filter_cons, hne]

/-- Closed form of the accumulator on top of an existing record. -/
theorem accRows_some (rows : List RawRow) :
    ∀ r : TickerRecord, accRows (some r) rows =
      some { shortname := r.shortname
             volume := r.volume + (rows.map (fun x => x.volume.getD 0)).sum
             value := r.value + (rows.map (fun x => x.value.getD 0)).sum
             numtrades := r.numtrades + (rows.map (fun x => x.numtrades.getD 0)).sum } := by
  induction rows with
  | nil => intro r; simp [accRows]
  | cons row rest ih =>
    intro r
    simp only [accRows, Option.getD_some]
    rw [ih (addRow r row)]
    simp [addRow, add_assoc]

/-- Closed form of the accumulator from scratch: the first row fixes the
shortname, the numeric fields are the sums. -/
theorem accRows_none (row : RawRow) (rest : List RawRow) :
    accRows none (row :: rest) =
      some { shortname := row.shortname
             volume := ((row :: rest).map (fun x => x.volume.getD 0)).sum
             value := ((row :: rest).map (fun x => x.value.getD 0)).sum
             numtrades := ((row :: rest).map (fun x => x.numtrades.getD 0)).sum } := by
  simp only [accRows, Option.getD_none]
  rw [accRows_some]
  simp [addRow, initRec]

/-- Keys of the aggregate are distinct and never excluded. -/
theorem aggregate_keys_invariant (raw : List RawRow) :
    ∀ agg : Dict TickerRecord, (dictKeys agg).Nodup →
      (∀ k ∈ dictKeys agg, excludedTicker k = false) →
      (dictKeys (raw.foldl aggregateStep agg)).Nodup ∧
        ∀ k ∈ dictKeys (raw.foldl aggregateStep agg), excludedTicker k = false := by
  induction raw with
  | nil => intro agg h1 h2; exact ⟨h1, h2⟩
  | cons row rest ih =>
    intro agg h1 h2
    by_cases hx : excludedTicker row.secid = true
    · rw [List.foldl_cons, aggregateStep_excluded agg row hx]
      exact ih agg h1 h2
    · have hx' : excludedTicker row.secid = false := by
        cases hb : excludedTicker row.secid
        · rfl
        · exact absurd hb hx
      rw [List.foldl_cons, aggregateStep_ok agg row hx']
      refine ih _ (dictKeys_nodup_dictSet _ _ _ h1) ?_
      intro k hk
      rcases mem_dictKeys_dictSet _ _ _ _ hk with h | h
      · exact h2 k h
      · rw [h]; exact hx'

/-- The mean of a single baseline value is that value. -/
theorem pyMean_single (v : ℚ) : pyMean [v] = v := by
  simp [pyMean]

/-- The statistics entry stored for a surviving ticker: the lookup at the
ticker of the first matching target entry yields the `mkStat` of its
baseline values and target record. -/
theorem calculate_statistics_find (base : List (Dict TickerRecord)) :
    ∀ (target : Dict TickerRecord) (ticker : String) (rec : TickerRecord),
      dictFind target ticker = some rec →
      excludedTicker ticker = false →
      excludedShortname rec.shortname = false →
      baselineValues base ticker ≠ [] →
      dictFind (calculate_statistics base target).1 ticker =
        some (mkStat (baselineValues base ticker) rec.shortname rec.value) := by
  intro target
  induction target with
  | nil => intro ticker rec hfind; cases hfind
  | cons hd tl ih =>
    intro ticker rec hfind h1 h2 h3
    obtain ⟨k, info⟩ := hd
    by_cases he : k = ticker
    · subst he
      have hrec : info = rec := by
        simpa [dictFind] using hfind
      subst hrec
      have hne : (baselineValues base k).isEmpty = false := by
        cases hb : (baselineValues base k).isEmpty
        · rfl
        · exact absurd (List.isEmpty_iff.mp hb) h3
      simp [calculate_statistics, h1, h2, hne, dictFind]
    · have hfind' : dictFind tl ticker = some rec := by
        simpa [dictFind, he] using hfind
      have tail := ih ticker rec hfind' h1 h2 h3
      by_cases hx : excludedTicker k = true
      · simpa [calculate_statistics, hx] using tail
      · have hx' : excludedTicker k = false := by
          cases hb : excludedTicker k
          · rfl
          · exact absurd hb hx
        by_cases hs : excludedShortname info.shortname = true
        · simpa [calculate_statistics, hx', hs] using tail
        · have hs' : excludedShortname info.shortname = false := by
            cases hb : excludedShortname info.shortname
            · rfl
            · exact absurd hb hs
          cases hbv : (baselineValues base k).isEmpty
          · simpa [calculate_statistics, hx', hs', hbv, dictFind, he] using tail
          · simpa [calculate_statistics, hx', hs', hbv] using tail

/-- A surviving ticker with exactly one baseline value contributes its
shortfall warning to the warnings list. -/
theorem calculate_statistics_warn (base : List (Dict TickerRecord)) :
    ∀ (target : Dict TickerRecord) (ticker : String) (rec : TickerRecord) (v : ℚ),
      dictFind target ticker = some rec →
      excludedTicker ticker = false →
      excludedShortname rec.shortname = false →
      baselineValues base ticker = [v] →
      warnMsg ticker 1 ∈ (calculate_statistics base target).2 := by
  intro target
  induction target with
  | nil => intro ticker rec v hfind; cases hfind
  | cons hd tl ih =>
    intro ticker rec v hfind h1 h2 h3
    obtain ⟨k, info⟩ := hd
    by_cases he : k = ticker
    · subst he
      have hrec : info = rec := by
        simpa [dictFind] using hfind
      subst hrec
      have hne : (baselineValues base k).isEmpty = false := by
        rw [h3]; rfl
      have hlen : ¬ (2 ≤ (baselineValues base k).length) := by
        rw [h3]; simp
      simp [calculate_statistics, h1, h2, hne, hlen, h3]
    · have hfind' : dictFind tl ticker = some rec := by
        simpa [dictFind, he] using hfind
      have tail := ih ticker rec v hfind' h1 h2 h3
      by_cases hx : excludedTicker k = true
      · simpa [calculate_statistics, hx] using tail
      · have hx' : excludedTicker k = false := by
          cases hb : excludedTicker k
          · rfl
          · exact absurd hb hx
        by_cases hs : excludedShortname info.shortname = true
        · simpa [calculate_statistics, hx', hs] using tail
        · have hs' : excludedShortname info.shortname = false := by
            cases hb : excludedShortname info.shortname
            · rfl
            · exact absurd hb hs
          cases hbv : (baselineValues base k).isEmpty
          · by_cases h2l : 2 ≤ (baselineValues base k).length
            · simpa [calculate_statistics, hx', hs', hbv, h2l] using tail
            · simp only [calculate_statistics, hx', hs', hbv]
              simp only [Bool.false_eq_true, if_false, List.isEmpty_eq_false]
              rw [if_neg h2l]
              exact List.mem_cons_of_mem _ tail
          · simpa [calculate_statistics, hx', hs', hbv] using tail

/-- Closed form of `mkStat` on a single baseline value: the else-branch of
`len(values) >= 2` fires, the spread is synthetic and positive, so the
z-score divides by it. -/
theorem mkStat_single (v : ℚ) (sn : String) (c : ℚ) :
    mkStat [v] sn c =
      { shortname := sn, current_value := c, mean_value := v
        std_value := (((if 0 < v then v * (1 / 100) else 1) : ℚ) : ℝ)
        z_score := ((c : ℝ) - (v : ℝ)) / (((if 0 < v then v * (1 / 100) else 1) : ℚ) : ℝ)
        deviation_pct := if 0 < v then (c - v) / v * 100 else 0
        base_days_count := 1 } := by
  have hpos : (0 : ℝ) < (((if 0 < v then v * (1 / 100) else 1) : ℚ) : ℝ) := by
    by_cases h : 0 < v
    · rw [if_pos h]
      rw [show ((0 : ℝ) = ((0 : ℚ) : ℝ)) from by norm_num]
      exact Rat.cast_lt.mpr (by positivity)
    · rw [if_neg h]; norm_num
  simp only [mkStat, pyMean_single, List.length_singleton]
  rw [if_neg (by norm_num), if_pos hpos]

/-- C1: a target identifier that survives exclusion and has exactly one
baseline value gets the synthetic spread (1% of the mean when the mean is
positive, 1 when the mean is zero), a warning is appended for it, and its
z-score is (current − mean) / that synthetic spread (the mean of one value
being that value). -/
theorem claim_C1_single_baseline (base : List (Dict TickerRecord))
    (target : Dict TickerRecord) (ticker : String) (rec : TickerRecord) (v : ℚ)
    (hfind : dictFind target ticker = some rec)
    (h1 : excludedTicker ticker = false)
    (h2 : excludedShortname rec.shortname = false)
    (hv : baselineValues base ticker = [v]) :
    ∃ info : TickerStats,
      dictFind (calculate_statistics base target).1 ticker = some info ∧
      info.mean_value = v ∧
      (0 < v → info.std_value = ((v * (1 / 100) : ℚ) : ℝ)) ∧
      (v = 0 → info.std_value = 1) ∧
      info.z_score = ((rec.value : ℝ) - (v : ℝ)) / info.std_value ∧
      warnMsg ticker 1 ∈ (calculate_statistics base target).2 := by
  have h3 : baselineValues base ticker ≠ [] := by rw [hv]; simp
  have hfound := calculate_statistics_find base target ticker rec hfind h1 h2 h3
  rw [hv, mkStat_single] at hfound
  refine ⟨_, hfound, rfl, ?_, ?_, ?_,
    calculate_statistics_warn base target ticker rec v hfind h1 h2 hv⟩
  · intro hp; simp [if_pos hp]
  · intro hz; simp [hz]
  · rfl

/-- Witness for C1 at a concrete input: GAZP with the single baseline
value 100 and target value 500. -/
theorem claim_C1_single_baseline_witness :
    ∃ info : TickerStats,
      dictFind (calculate_statistics c1Base c1Target).1 "GAZP" = some info ∧
      info.mean_value = 100 ∧
      (0 < (100 : ℚ) → info.std_value = (((100 : ℚ) * (1 / 100) : ℚ) : ℝ)) ∧
      ((100 : ℚ) = 0 → info.std_value = 1) ∧
      info.z_score = (((500 : ℚ) : ℝ) - ((100 : ℚ) : ℝ)) / info.std_value ∧
      warnMsg "GAZP" 1 ∈ (calculate_statistics c1Base c1Target).2 :=
  claim_C1_single_baseline c1Base c1Target "GAZP" ⟨"Газпром", 7, 500, 4⟩ 100
    (by decide) (by decide) (by decide) (by decide)

/-- C2: aggregation yields at most one record per identifier, never keeps
an excluded-prefix identifier, and for each surviving identifier sums the
numeric fields over its rows (null counted as 0) while the display name
comes from its first row. -/
theorem claim_C2_aggregate (raw : List RawRow) :
    (dictKeys (aggregate_ticker_data raw)).Nodup ∧
    (∀ k ∈ dictKeys (aggregate_ticker_data raw), excludedTicker k = false) ∧
    (∀ s : String, excludedTicker s = false →
      (rowsFor raw s = [] → dictFind (aggregate_ticker_data raw) s = none) ∧
      (∀ row rest, rowsFor raw s = row :: rest →
        dictFind (aggregate_ticker_data raw) s =
          some { shortname := row.shortname
                 volume := ((row :: rest).map (fun x => x.volume.getD 0)).sum
                 value := ((row :: rest).map (fun x => x.value.getD 0)).sum
                 numtrades := ((row :: rest).map (fun x => x.numtrades.getD 0)).sum })) := by
  refine ⟨(aggregate_keys_invariant raw [] (by simp [dictKeys]) (by simp [dictKeys])).1,
    (aggregate_keys_invariant raw [] (by simp [dictKeys]) (by simp [dictKeys])).2, ?_⟩
  intro s hs
  constructor
  · intro hempty
    rw [aggregate_ticker_data, dictFind_foldl_aggregateStep raw [] s hs, hempty]
    rfl
  · intro row rest hrows
    rw [aggregate_ticker_data, dictFind_foldl_aggregateStep raw [] s hs, hrows]
    exact accRows_none row rest

/-- Witness for C2 at a concrete raw feed: SBER is aggregated over two
sessions with a null volume treated as 0, the bond row is dropped. -/
theorem claim_C2_aggregate_witness :
    (dictKeys (aggregate_ticker_data c2Raw)).Nodup ∧
    excludedTicker "SBER" = false ∧
    dictFind (aggregate_ticker_data c2Raw) "SBER" =
      some { shortname := "Сбербанк", volume := 10, value := 150, numtrades := 7 } := by
  have h := claim_C2_aggregate c2Raw
  refine ⟨h.1, by decide, ?_⟩
  have h2 := (h.2.2 "SBER" (by decide)).2
    ⟨"SBER", "Сбербанк", some 10, some 100, some 5⟩
    [⟨"SBER", "Сбер2", none, some 50, some 2⟩] (by decide)
  rw [h2]
  norm_num

/-- The warning message always carries the fixed literal window length 5:
its text ends in "вместо 5" whatever the actual window length was. -/
theorem warnMsg_claims_five (ticker : String) (n : ℕ) :
    "вместо 5".data <:+ (warnMsg ticker n).data := by
  have h1 : "вместо 5".data <:+ " день(ей) данных вместо 5".data := by decide
  have h2 : " день(ей) данных вместо 5".data <:+ (warnMsg ticker n).data := by
    rw [warnMsg, String.data_append]
    exact List.suffix_append _ _
  exact h1.trans h2

/-- C10 (amended): the warning for a ticker with exactly one baseline
value states the actual number of available days (1), but the window
length it mentions is the fixed literal 5 regardless of how many baseline
snapshots were passed in. -/
theorem claim_C10_amended (base : List (Dict TickerRecord))
    (target : Dict TickerRecord) (ticker : String) (rec : TickerRecord) (v : ℚ)
    (hfind : dictFind target ticker = some rec)
    (h1 : excludedTicker ticker = false)
    (h2 : excludedShortname rec.shortname = false)
    (hv : baselineValues base ticker = [v]) :
    warnMsg ticker (baselineValues base ticker).length ∈ (calculate_statistics base target).2 ∧
    (baselineValues base ticker).length = 1 ∧
    "вместо 5".data <:+ (warnMsg ticker (baselineValues base ticker).length).data := by
  rw [hv]
  exact ⟨calculate_statistics_warn base target ticker rec v hfind h1 h2 hv, rfl,
    warnMsg_claims_five ticker 1⟩

/-- Witness for the amended C10 at the concrete three-day window. -/
theorem claim_C10_amended_witness :
    warnMsg "LKOH" (baselineValues c10Base "LKOH").length ∈
      (calculate_statistics c10Base c10Target).2 ∧
    (baselineValues c10Base "LKOH").length = 1 ∧
    "вместо 5".data <:+ (warnMsg "LKOH" (baselineValues c10Base "LKOH").length).data :=
  claim_C10_amended c10Base c10Target "LKOH" ⟨"Лукойл", 2, 900, 2⟩ 200
    (by decide) (by decide) (by decide) (by decide)

/-- C10 counterexample: with a window of 3 baseline snapshots (not 5) the
emitted warning still reads "... вместо 5", so the message does claim the
window length is 5 although the actual window length is 3. -/
theorem claim_C10_counterexample :
    c10Base.length = 3 ∧ c10Base.length ≠ 5 ∧
    (calculate_statistics c10Base c10Target).2 =
      ["Тикер LKOH: только 1 день(ей) данных вместо 5"] := by
  refine ⟨rfl, by decide, ?_⟩
  decide

/-- The sample variance of five identical values is zero. -/
theorem sampleVariance_c4 : sampleVariance [100, 100, 100, 100, 100] = 0 := by
  norm_num [sampleVariance, pyMean]

/-- The sample standard deviation of five identical values is zero. -/
theorem pyStdev_c4 : pyStdev [100, 100, 100, 100, 100] = 0 := by
  rw [pyStdev, sampleVariance_c4]
  simp

/-- `mkStat` on the C4 scenario: mean 100, std 0, z-score 0 through the
`std > 0` guard, deviation +400. -/
theorem mkStat_c4 :
    mkStat [100, 100, 100, 100, 100] "Тест" 500 =
      { shortname := "Тест", current_value := 500, mean_value := 100
        std_value := 0, z_score := 0, deviation_pct := 400, base_days_count := 5 } := by
  have hm : pyMean [100, 100, 100, 100, 100] = 100 := by norm_num [pyMean]
  simp only [mkStat, hm]
  rw [if_pos (by norm_num : 2 ≤ ([100, 100, 100, 100, 100] : List ℚ).length)]
  rw [pyStdev_c4]
  rw [if_neg (lt_irrefl (0 : ℝ)), if_pos (by norm_num : (0 : ℚ) < 100)]
  norm_num

/-- C4: with baseline [100, 100, 100, 100, 100] and target value 500 the
statistics are mean 100, sample std 0, z-score 0 (the `std > 0` guard
fires), deviation +400, and with threshold 3σ the instrument is not
selected even though its deviation exceeds 300%. -/
theorem claim_C4_zero_std_scenario :
    (calculate_statistics c4Base c4Target).1 =
      [("TST", { shortname := "Тест", current_value := 500, mean_value := 100
                 std_value := 0, z_score := 0, deviation_pct := 400
                 base_days_count := 5 })] ∧
    MIN_DEVIATION_PERCENT < 400 ∧
    find_anomalies (calculate_statistics c4Base c4Target).1 ANOMALY_THRESHOLD_SIGMA = [] := by
  have hbv : baselineValues c4Base "TST" = [100, 100, 100, 100, 100] := by decide
  have hstats : (calculate_statistics c4Base c4Target).1 =
      [("TST", mkStat [100, 100, 100, 100, 100] "Тест" 500)] := by
    rw [show c4Target = [("TST", ⟨"Тест", 5, 500, 5⟩)] from rfl]
    simp [calculate_statistics, hbv,
      show excludedTicker "TST" = false from by decide,
      show excludedShortname "Тест" = false from by decide]
  rw [hstats, mkStat_c4]
  refine ⟨rfl, by norm_num [MIN_DEVIATION_PERCENT], ?_⟩
  have htest : anomalyTest ANOMALY_THRESHOLD_SIGMA
      ("TST", { shortname := "Тест", current_value := 500, mean_value := 100
                std_value := 0, z_score := 0, deviation_pct := 400
                base_days_count := 5 }) = false := by
    simp only [anomalyTest, ANOMALY_THRESHOLD_SIGMA]
    rw [decide_eq_false (by norm_num : ¬ ((3 : ℝ) < (0 : ℝ)))]
    simp
  simp [find_anomalies, List.filter, htest]

/-- C3: `find_anomalies` keeps an instrument exactly when all three of
the threshold tests hold (z-score strictly above the sigma threshold,
deviation strictly above `MIN_DEVIATION_PERCENT` = 300, and mean at least
`MIN_AVG_VALUE` = 10,000,000); failing any single test removes it. -/
theorem claim_C3_conjunction (stats : Dict TickerStats) (threshold : ℝ)
    (p : String × TickerStats) :
    (p ∈ find_anomalies stats threshold ↔
      p ∈ stats ∧ threshold < p.2.z_score ∧
        MIN_DEVIATION_PERCENT < p.2.deviation_pct ∧ MIN_AVG_VALUE ≤ p.2.mean_value) ∧
    MIN_DEVIATION_PERCENT = 300 ∧ MIN_AVG_VALUE = 10000000 := by
  refine ⟨?_, rfl, rfl⟩
  rw [find_anomalies, (List.perm_insertionSort zDescRel _).mem_iff]
  simp [List.mem_filter, anomalyTest, and_assoc]

/-- Two sorted permutations of each other are equal, given antisymmetry
of the order on the members of the first list. -/
theorem sorted_eq_of_perm {α : Type} {r : α → α → Prop} :
    ∀ {l₁ l₂ : List α}, l₁.Perm l₂ → l₁.Pairwise r → l₂.Pairwise r →
      (∀ a ∈ l₁, ∀ b ∈ l₁, r a b → r b a → a = b) → l₁ = l₂ := by
  intro l₁
  induction l₁ with
  | nil =>
    intro l₂ hp _ _ _
    exact (List.Perm.eq_nil hp.symm).symm
  | cons a t₁ ih =>
    intro l₂ hp hs₁ hs₂ hanti
    cases l₂ with
    | nil => cases List.Perm.eq_nil hp
    | cons b t₂ =>
      by_cases hab : a = b
      · subst hab
        have hp' : t₁.Perm t₂ := hp.cons_inv
        have ht := ih hp' (List.Pairwise.of_cons hs₁) (List.Pairwise.of_cons hs₂)
          (fun x hx y hy => hanti x (List.mem_cons_of_mem _ hx) y (List.mem_cons_of_mem _ hy))
        rw [ht]
      · have hbmem : b ∈ a :: t₁ := hp.symm.subset (List.mem_cons_self b t₂)
        have hb : b ∈ t₁ := by
          rcases List.mem_cons.mp hbmem with h | h
          · exact absurd h.symm hab
          · exact h
        have hamem : a ∈ b :: t₂ := hp.subset (List.mem_cons_self a t₁)
        have ha : a ∈ t₂ := by
          rcases List.mem_cons.mp hamem with h | h
          · exact absurd h hab
          · exact h
        have rab : r a b := (List.pairwise_cons.mp hs₁).1 b hb
        have rba : r b a := (List.pairwise_cons.mp hs₂).1 a ha
        exact absurd (hanti a (List.mem_cons_self a t₁) b hbmem rab rba) hab

/-- Filtering a reversed list reverses the filtered list. -/
theorem filter_reverse' {α : Type} (p : α → Bool) (l : List α) :
    l.reverse.filter p = (l.filter p).reverse := by
  induction l with
  | nil => rfl
  | cons a t ih =>
    cases hp : p a <;>
      simp [List.filter_cons, List.reverse_cons, List.filter_append, hp, ih]

/-- C5 (amended): `find_anomalies` returns the selected entries sorted by
z-score descending and is a permutation of the filtered input; reversing
the iteration order of the input mapping keeps the output unchanged when
all z-scores are pairwise distinct. (Equal z-scores follow input order, so
reversing the input can swap tied entries — see the counterexample.) -/
theorem claim_C5_sorted_desc (stats : Dict TickerStats) (threshold : ℝ) :
    (find_anomalies stats threshold).Sorted zDescRel ∧
    (find_anomalies stats threshold).Perm
      (stats.filter (fun p => anomalyTest threshold p)) ∧
    ((stats.map (fun p => p.2.z_score)).Nodup →
      find_anomalies stats.reverse threshold = find_anomalies stats threshold) := by
  haveI : IsTotal (String × TickerStats) zDescRel := ⟨fun a b => le_total _ _⟩
  haveI : IsTrans (String × TickerStats) zDescRel :=
    ⟨fun _ _ _ hab hbc => le_trans hbc hab⟩
  refine ⟨List.sorted_insertionSort zDescRel _, List.perm_insertionSort zDescRel _, ?_⟩
  intro hnodup
  have hperm : (find_anomalies stats.reverse threshold).Perm
      (find_anomalies stats threshold) := by
    refine (List.perm_insertionSort zDescRel _).trans (.trans ?_
      (List.perm_insertionSort zDescRel _).symm)
    rw [filter_reverse']
    exact (stats.filter _).reverse_perm
  have hmem : ∀ q ∈ find_anomalies stats.reverse threshold, q ∈ stats := by
    intro q hq
    have := (List.perm_insertionSort zDescRel _).subset hq
    exact (List.mem_reverse.mp (List.mem_of_mem_filter this))
  refine sorted_eq_of_perm hperm (List.sorted_insertionSort zDescRel _)
    (List.sorted_insertionSort zDescRel _) ?_
  intro a ha b hb hrab hrba
  have hz : b.2.z_score = a.2.z_score := le_antisymm hrab hrba
  exact (List.inj_on_of_nodup_map hnodup (hmem a ha) (hmem b hb) hz.symm)

/-- C5 counterexample: with two selected entries tied at z-score 5,
reversing the input mapping reverses the output, so the output sequence is
not invariant under reversing the input. -/
theorem claim_C5_counterexample :
    find_anomalies c5Stats ANOMALY_THRESHOLD_SIGMA = [("AAA", c5A), ("BBB", c5B)] ∧
    find_anomalies c5Stats.reverse ANOMALY_THRESHOLD_SIGMA = [("BBB", c5B), ("AAA", c5A)] ∧
    find_anomalies c5Stats.reverse ANOMALY_THRESHOLD_SIGMA ≠
      find_anomalies c5Stats ANOMALY_THRESHOLD_SIGMA := by
  have hA : anomalyTest ANOMALY_THRESHOLD_SIGMA ("AAA", c5A) = true := by
    simp only [anomalyTest, ANOMALY_THRESHOLD_SIGMA, MIN_DEVIATION_PERCENT, MIN_AVG_VALUE,
      c5A, Bool.and_eq_true, decide_eq_true_eq]
    norm_num
  have hB : anomalyTest ANOMALY_THRESHOLD_SIGMA ("BBB", c5B) = true := by
    simp only [anomalyTest, ANOMALY_THRESHOLD_SIGMA, MIN_DEVIATION_PERCENT, MIN_AVG_VALUE,
      c5B, Bool.and_eq_true, decide_eq_true_eq]
    norm_num
  have hAB : zDescRel ("AAA", c5A) ("BBB", c5B) := by
    simp [zDescRel, c5A, c5B]
  have hBA : zDescRel ("BBB", c5B) ("AAA", c5A) := by
    simp [zDescRel, c5A, c5B]
  have h1 : find_anomalies c5Stats ANOMALY_THRESHOLD_SIGMA = [("AAA", c5A), ("BBB", c5B)] := by
    rw [find_anomalies]
    rw [show c5Stats.filter (fun p => anomalyTest ANOMALY_THRESHOLD_SIGMA p) = c5Stats from by
      simp [c5Stats, List.filter_cons, hA, hB]]
    simp only [c5Stats, List.insertionSort, List.orderedInsert]
    rw [if_pos hAB]
  have h2 : find_anomalies c5Stats.reverse ANOMALY_THRESHOLD_SIGMA =
      [("BBB", c5B), ("AAA", c5A)] := by
    rw [find_anomalies]
    rw [show c5Stats.reverse.filter (fun p => anomalyTest ANOMALY_THRESHOLD_SIGMA p) =
        [("BBB", c5B), ("AAA", c5A)] from by
      simp [c5Stats, List.filter_cons, hA, hB]]
    simp only [List.insertionSort, List.orderedInsert]
    rw [if_pos hBA]
  refine ⟨h1, h2, ?_⟩
  rw [h1, h2]
  intro heq
  have : ("BBB" : String) = "AAA" := congrArg Prod.fst (List.head_eq_of_cons_eq heq)
  exact absurd this (by decide)

/-- Witness for the amended C5 at a concrete one-entry mapping with a
trivially duplicate-free z-score list. -/
theorem claim_C5_sorted_desc_witness :
    (find_anomalies [("AAA", c5A)] ANOMALY_THRESHOLD_SIGMA).Sorted zDescRel ∧
    (find_anomalies [("AAA", c5A)] ANOMALY_THRESHOLD_SIGMA).Perm
      ([("AAA", c5A)].filter (fun p => anomalyTest ANOMALY_THRESHOLD_SIGMA p)) ∧
    find_anomalies ([("AAA", c5A)] : Dict TickerStats).reverse ANOMALY_THRESHOLD_SIGMA =
      find_anomalies [("AAA", c5A)] ANOMALY_THRESHOLD_SIGMA :=
  ⟨(claim_C5_sorted_desc [("AAA", c5A)] ANOMALY_THRESHOLD_SIGMA).1,
   (claim_C5_sorted_desc [("AAA", c5A)] ANOMALY_THRESHOLD_SIGMA).2.1,
   (claim_C5_sorted_desc [("AAA", c5A)] ANOMALY_THRESHOLD_SIGMA).2.2 (by simp)⟩

/-- Characterization of the pagination loop from an arbitrary page index:
if the `k`-th page from `j` is the first empty one and the fuel suffices,
the loop returns the concatenation of the `k` nonempty pages, the `k + 1`
requested offsets (the final empty page is also requested), and one sleep
per full page. -/
theorem pageLoop_spec (pages : ℕ → List RawRow) :
    ∀ (k j fuel : ℕ) (acc : List RawRow) (offs : List ℕ) (sleeps : ℕ),
      pages (100 * (j + k)) = [] →
      (∀ i < k, pages (100 * (j + i)) ≠ []) →
      k < fuel →
      pageLoop pages fuel (100 * j) acc offs sleeps =
        some (acc ++ pagesConcat pages j k,
              offs ++ offsetsList j (k + 1),
              sleeps + fullCount pages j k) := by
  intro k
  induction k with
  | zero =>
    intro j fuel acc offs sleeps hk _ hf
    cases fuel with
    | zero => cases hf
    | succ f =>
      rw [Nat.add_zero] at hk
      rw [pageLoop]
      simp [hk, pagesConcat, offsetsList, fullCount]
  | succ k ih =>
    intro j fuel acc offs sleeps hk hne hf
    cases fuel with
    | zero => cases hf
    | succ f =>
      have h0 : pages (100 * j) ≠ [] := by
        simpa using hne 0 (Nat.succ_pos k)
      have h0' : (pages (100 * j)).isEmpty = false := by
        cases hb : (pages (100 * j)).isEmpty
        · rfl
        · exact absurd (List.isEmpty_iff.mp hb) h0
      rw [pageLoop]
      simp only [h0', Bool.false_eq_true, if_false]
      rw [show 100 * j + 100 = 100 * (j + 1) from by ring]
      rw [ih (j + 1) f (acc ++ pages (100 * j)) (offs ++ [100 * j])
        (sleeps + if (pages (100 * j)).length = 100 then 1 else 0)
        (by rw [show j + 1 + k = j + (k + 1) from by ring]; exact hk)
        (fun i hi => by
          rw [show j + 1 + i = j + (i + 1) from by ring]
          exact hne (i + 1) (Nat.succ_lt_succ hi))
        (Nat.lt_of_succ_lt_succ hf)]
      simp [pagesConcat, offsetsList, fullCount, List.append_assoc, Nat.add_assoc]

/-- C6 (amended): one fetch attempt requests pages at offsets
0, 100, 200, … and stops only after a page comes back with zero rows — a
nonempty page shorter than the page size does not stop the loop, the next
offset is still requested; all received rows are concatenated in order,
and the inter-page delay is taken exactly once per full (100-row) page. -/
theorem claim_C6_pagination (pages : ℕ → List RawRow) (k fuel : ℕ)
    (hk : pages (100 * k) = [])
    (hne : ∀ i < k, pages (100 * i) ≠ [])
    (hf : k < fuel) :
    pageLoop pages fuel 0 [] [] 0 =
      some (pagesConcat pages 0 k, offsetsList 0 (k + 1), fullCount pages 0 k) := by
  have := pageLoop_spec pages k 0 fuel [] [] 0 (by simpa using hk)
    (fun i hi => by simpa using hne i hi) hf
  simpa using this

/-- C6 counterexample: after a first page with 1 row (fewer than the page
size 100 and nonzero), the loop still requests the next page at offset
100 — the requested offsets are [0, 100], not just [0], so the fetcher
does not stop as soon as a page returns fewer rows than the page size. -/
theorem claim_C6_counterexample :
    pageLoop c6Pages 5 0 [] [] 0 =
      some ([⟨"SBER", "Сбербанк", some 1, some 1, some 1⟩], [0, 100], 0) ∧
    ([0, 100] : List ℕ) ≠ [0] :=
  ⟨by decide, by decide⟩

/-- Witness for the amended C6 at the concrete single-page feed. -/
theorem claim_C6_pagination_witness :
    pageLoop c6Pages 5 0 [] [] 0 =
      some (pagesConcat c6Pages 0 1, offsetsList 0 2, fullCount c6Pages 0 1) :=
  claim_C6_pagination c6Pages 1 5 (by decide) (fun i hi => by
    interval_cases i
    decide) (by decide)

/-- C7: with the cache already holding a snapshot for the date, a
force=false call returns the cached ticker mapping unchanged, leaves the
cache untouched and performs no fetch; hence two consecutive force=false
calls perform zero fetches in total. -/
theorem claim_C7_cache_hit (fetchResult : Except String (Dict TickerRecord))
    (cache : Dict CacheEntry) (date : String) (entry : CacheEntry)
    (h : dictFind cache date = some entry) :
    load_or_fetch_data fetchResult cache date false = (Except.ok entry.tickers, cache, 0) ∧
    (load_or_fetch_data fetchResult cache date false).2.2 +
      (load_or_fetch_data fetchResult
        (load_or_fetch_data fetchResult cache date false).2.1 date false).2.2 = 0 := by
  have h1 : load_or_fetch_data fetchResult cache date false =
      (Except.ok entry.tickers, cache, 0) := by
    simp [load_or_fetch_data, h]
  refine ⟨h1, ?_⟩
  rw [h1]
  show 0 + (load_or_fetch_data fetchResult cache date false).2.2 = 0
  rw [h1]
  rfl

/-- Witness for C7: a prepopulated cache, an erroring fetcher that is
never consulted. -/
theorem claim_C7_cache_hit_witness :
    load_or_fetch_data (Except.error "network down") c7Cache "2026-01-30" false =
      (Except.ok [("SBER", ⟨"Сбербанк", 10, 150, 7⟩)], c7Cache, 0) ∧
    (load_or_fetch_data (Except.error "network down") c7Cache "2026-01-30" false).2.2 +
      (load_or_fetch_data (Except.error "network down")
        (load_or_fetch_data (Except.error "network down") c7Cache "2026-01-30" false).2.1
        "2026-01-30" false).2.2 = 0 :=
  claim_C7_cache_hit (Except.error "network down") c7Cache "2026-01-30"
    ⟨"2026-01-30", [("SBER", ⟨"Сбербанк", 10, 150, 7⟩)]⟩ (by decide)

/-- When every attempt fails, the retry loop surfaces an error. -/
theorem fetch_volumes_all_fail :
    ∀ attempts : List (Except String (List RawRow)), attempts ≠ [] →
      (∀ r ∈ attempts, ∃ e, r = Except.error e) →
      ∃ e, fetch_volumes_from_api attempts = Except.error e := by
  intro attempts
  induction attempts with
  | nil => intro h; cases h rfl
  | cons r rest ih =>
    intro _ hall
    obtain ⟨e, he⟩ := hall r (List.mem_cons_self r rest)
    subst he
    cases rest with
    | nil => exact ⟨e, rfl⟩
    | cons r2 rest2 =>
      rw [show fetch_volumes_from_api (Except.error e :: r2 :: rest2) =
          fetch_volumes_from_api (r2 :: rest2) from rfl]
      exact ih (by simp) (fun x hx => hall x (List.mem_cons_of_mem _ hx))

/-- C8: when every retry attempt fails, `load_or_fetch_data` on the fetch
path (forced, or cache miss) propagates the error and writes no cache
entry; a cache entry is written exactly on a successful fetch — including
a genuinely empty one — as the snapshot for that date. -/
theorem claim_C8_no_cache_on_failure (attempts : List (Except String (List RawRow)))
    (cache : Dict CacheEntry) (date : String) (force : Bool)
    (hne : attempts ≠ [])
    (hfail : ∀ r ∈ attempts, ∃ e, r = Except.error e)
    (hpath : force = true ∨ dictFind cache date = none) :
    (load_or_fetch_data (fetch_volumes_from_api attempts) cache date force).2.1 = cache ∧
    (∃ e, (load_or_fetch_data (fetch_volumes_from_api attempts) cache date force).1 =
      Except.error e) ∧
    (∀ d : Dict TickerRecord,
      load_or_fetch_data (Except.ok d) cache date force =
        (Except.ok d, dictSet cache date ⟨date, d⟩, 1)) := by
  obtain ⟨e, he⟩ := fetch_volumes_all_fail attempts hne hfail
  rw [he]
  cases force with
  | true =>
    exact ⟨by simp [load_or_fetch_data], ⟨e, by simp [load_or_fetch_data]⟩,
      fun d => by simp [load_or_fetch_data]⟩
  | false =>
    have hmiss : dictFind cache date = none := by
      rcases hpath with h | h
      · cases h
      · exact h
    exact ⟨by simp [load_or_fetch_data, hmiss], ⟨e, by simp [load_or_fetch_data, hmiss]⟩,
      fun d => by simp [load_or_fetch_data, hmiss]⟩

/-- Witness for C8: five failing attempts against an empty cache, and the
empty successful fetch that would have written an (empty) snapshot. -/
theorem claim_C8_no_cache_on_failure_witness :
    (load_or_fetch_data
      (fetch_volumes_from_api (List.replicate 5 (Except.error "timeout")))
      [] "2026-01-30" false).2.1 = [] ∧
    (∃ e, (load_or_fetch_data
      (fetch_volumes_from_api (List.replicate 5 (Except.error "timeout")))
      [] "2026-01-30" false).1 = Except.error e) ∧
    (∀ d : Dict TickerRecord,
      load_or_fetch_data (Except.ok d) [] "2026-01-30" false =
        (Except.ok d, dictSet [] "2026-01-30" ⟨"2026-01-30", d⟩, 1)) :=
  claim_C8_no_cache_on_failure (List.replicate 5 (Except.error "timeout"))
    [] "2026-01-30" false (by simp)
    (fun r hr => ⟨"timeout", by
      rcases List.eq_of_mem_replicate hr with rfl
      rfl⟩)
    (Or.inr rfl)

/-- C9 (amended): for a nonempty baseline period (both renderings index
`base_period[0]` and raise on an empty one), the structured JSON report
carries the raw counts (total ticker count and anomaly count) and
computes no percentage, while the text rendering divides the anomaly
count by the total and therefore fails (`ZeroDivisionError`) exactly when
the total is zero. -/
theorem claim_C9_report_counts (anomalies : List (String × TickerStats))
    (target_date : String) (base_period : List String) (warnings : List String)
    (total : ℕ) (hbp : base_period ≠ []) :
    (∃ rep : JsonReport,
      generate_json_report anomalies target_date base_period total warnings = some rep ∧
      rep.metadata.total_tickers = total ∧
      rep.metadata.anomalies_found = anomalies.length ∧
      rep.warnings = warnings) ∧
    (total = 0 →
      generate_txt_report anomalies target_date base_period total warnings = none) ∧
    (total ≠ 0 →
      (generate_txt_report anomalies target_date base_period total warnings).isSome = true) := by
  obtain ⟨a, as, rfl⟩ := List.exists_cons_of_ne_nil hbp
  obtain ⟨z, hz⟩ := Option.isSome_iff_exists.mp
    (List.getLast?_isSome.mpr (List.cons_ne_nil a as))
  have hrep : generate_json_report anomalies target_date (a :: as) total warnings =
      some { metadata :=
             { analysis_date := target_date, base_period_start := a
               base_period_end := z, base_period_days := (a :: as).length
               threshold_sigma := ANOMALY_THRESHOLD_SIGMA, total_tickers := total
               anomalies_found := anomalies.length }
             anomalies := anomalies.enum.map (fun p =>
               { rank := p.1 + 1, ticker := p.2.1, shortname := p.2.2.shortname
                 current_value := p.2.2.current_value, avg_value := p.2.2.mean_value
                 std_value := p.2.2.std_value, z_score := roundR2 p.2.2.z_score
                 deviation_percent := roundQ 1 p.2.2.deviation_pct
                 base_days_count := p.2.2.base_days_count })
             warnings := warnings } := by
    simp [generate_json_report, hz]
  refine ⟨⟨_, hrep, rfl, rfl, rfl⟩, ?_, ?_⟩
  · intro h0
    subst h0
    simp [generate_txt_report, hz, pyDiv]
  · intro hn
    have hq : ((total : ℚ)) ≠ 0 := Nat.cast_ne_zero.mpr hn
    simp [generate_txt_report, hz, pyDiv, hq]

/-- C9 counterexample: at a zero total the text rendering raises
(`none` in the model) instead of tolerating the zero total, for any
anomaly list — here the empty one, with a nonempty baseline period. -/
theorem claim_C9_counterexample :
    generate_txt_report [] "2026-02-02" ["2026-01-26", "2026-01-30"] 0 [] = none := by
  simp [generate_txt_report, pyDiv]

/-- Witness for the amended C9 at concrete inputs, zero and nonzero. -/
theorem claim_C9_report_counts_witness :
    ((∃ rep : JsonReport,
      generate_json_report [] "2026-01-31" ["2026-01-24"] 0 [] = some rep ∧
      rep.metadata.total_tickers = 0 ∧
      rep.metadata.anomalies_found = ([] : List (String × TickerStats)).length ∧
      rep.warnings = []) ∧
     ((0 : ℕ) = 0 → generate_txt_report [] "2026-01-31" ["2026-01-24"] 0 [] = none) ∧
     ((0 : ℕ) ≠ 0 →
       (generate_txt_report [] "2026-01-31" ["2026-01-24"] 0 []).isSome = true)) ∧
    (generate_txt_report [] "2026-01-31" ["2026-01-24"] 3 []).isSome = true :=
  ⟨claim_C9_report_counts [] "2026-01-31" ["2026-01-24"] [] 0 (by simp),
   (claim_C9_report_counts [] "2026-01-31" ["2026-01-24"] [] 3 (by simp)).2.2 (by decide)⟩

